import Mathlib

/-!
Shallow embedding of the MRC tomography reader from dtr (src/dtr/src/mrc.c):
the function mrc_read, which parses a primary header, a sequence of per-slice
extended headers and a block of 16-bit signed pixel planes, and the file-name
predicate mrc_is_mrcfile.

The struct layouts live in mrc.h, which is not part of the sources at hand, so
the stream is modelled at record granularity: the values obtained by each
fread are fields of an MRCStream.  The two struct sizes and the helper
functions from utils (lambda, deg2rad) and image.c (image_add) are likewise
not in the sources and are modelled from the spec where a claim needs them.
All integer header fields are int32 in the file and are modelled as Int; the
C conversions to unsigned int are made explicit through toU32.
-/

/-- Value of a C int32 expression converted to unsigned int (32-bit). -/
def toU32 (n : Int) : Nat := (n % 4294967296).toNat

/-- Modelled from the spec: sizeof(MRCHeader), the fixed size in bytes of the
primary-header record declared in the missing mrc.h.  The spec fixes only
that the record has a fixed size; the canonical MRC primary header is 1024
bytes.  No claim depends on the concrete value. -/
def sizeof_MRCHeader : Nat := 1024

/-- Modelled from the spec: sizeof(MRCExtHeader), the maximum extended-header
buffer size declared in the missing mrc.h (a fixed constant; the guard in
mrc_read compares the computed extended-header size against it).  No claim
depends on the concrete value. -/
def sizeof_MRCExtHeader : Nat := 128

/-- The fields of the MRC primary header that mrc_read consumes, each an
int32 in the file (native byte order). -/
structure MRCHeader where
  nx : Int
  ny : Int
  nz : Int
  mode : Int
  nxstart : Int
  nystart : Int
  numintegers : Int
  numfloats : Int
  next : Int
deriving DecidableEq

/-- The fields of a per-slice extended header that mrc_read consumes.  The
float values are modelled as rationals. -/
structure MRCExtHeader where
  a_tilt : ℚ
  tilt_axis : ℚ
  magnification : ℚ
  voltage : ℚ
  pixel_size : ℚ
deriving DecidableEq

/-- The input stream, at record granularity: size is the number of bytes in
the file; header is the value the primary-header fread stores; ext i is the
value held by the i-th extended-header record after its fread (the records
are read sequentially, extsize bytes each, right after the primary header);
int16At o is the signed 16-bit value of the two bytes at absolute offset o
as obtained by a plane fread.  Bytes past size (and at negative offsets) are
never checked by the code, so the functions are total: past end-of-file they
return whatever unspecified values the unchecked fread left in the buffers. -/
structure MRCStream where
  size : Nat
  header : MRCHeader
  ext : Nat → MRCExtHeader
  int16At : Int → Int

/-- extsize = 4*mrc.numintegers + 4*mrc.numfloats, computed in C as an
unsigned int from two int32 fields. -/
def extsizeOf (h : MRCHeader) : Nat := toU32 (4 * h.numintegers + 4 * h.numfloats)

/-- The per-sample clipping mrc_read performs when converting the signed
plane buffer to the unsigned output buffer: a negative sample becomes 0,
any other sample is passed through. -/
def clip16 (s : Int) : Nat := if s < 0 then 0 else s.toNat

/-- Absolute byte offset of plane i, as passed to fseek:
mrc.next + sizeof(MRCHeader) + mrc.nx*mrc.ny*2*i. -/
def planeOffset (h : MRCHeader) (i : Nat) : Int :=
  h.next + (sizeof_MRCHeader : Int) + h.nx * h.ny * 2 * (i : Int)

/-- The voltage, in volts, that mrc_read passes to the wavelength relation
for a slice: 200000 when the extended header records voltage 0, otherwise
1000 times the recorded kilovolt value. -/
def lambdaArg (voltage : ℚ) : ℚ := if voltage = 0 then 200000 else 1000 * voltage

/-- One call to the image sink (image_add, external to this core), together
with the acquisition-context fields mrc_read set for the slice just before
the call.  The image is the unsigned 16-bit plane in row-major order
(flat index x + nx*y); a_tilt and omega_deg are in degrees (the code applies
deg2rad at the call boundary); lambdaVolts is the argument handed to the
wavelength relation. -/
structure EmittedImage where
  image : List Nat
  width : Int
  height : Int
  a_tilt : ℚ
  camera_length : ℚ
  lambdaVolts : ℚ
  omega_deg : ℚ
  pixel_size : ℚ
deriving DecidableEq

/-- The plane mrc_read emits for slice i: each flat index j < nx*ny (the
double loop writes exactly the indices x + nx*y for x < nx, y < ny) holds
the clipped value of the signed sample read at byte offset
planeOffset + 2*j, and the slice metadata comes from extended header i. -/
def emitPlane (s : MRCStream) (i : Nat) : EmittedImage :=
  { image := (List.range (s.header.nx.toNat * s.header.ny.toNat)).map
      (fun j : Nat => clip16 (s.int16At (planeOffset s.header i + 2 * (j : Int))))
    width := s.header.nx
    height := s.header.ny
    a_tilt := (s.ext i).a_tilt
    camera_length := (s.ext i).magnification
    lambdaVolts := lambdaArg (s.ext i).voltage
    omega_deg := (s.ext i).tilt_axis
    pixel_size := (s.ext i).pixel_size }

/-- Spec error kinds.  Every early-return path of mrc_read (return -1 after
an fprintf diagnostic) is a format error; the code contains no path that
reports a truncation or transport-level failure. -/
inductive MrcErrorKind where
  | formatError
  | truncatedInputError
  | ioError
deriving DecidableEq

/-- The three early-return diagnostics of mrc_read. -/
inductive MrcError where
  | badMode
  | badOrigin
  | extTooBig
deriving DecidableEq

/-- Classification of the diagnostics by spec error kind. -/
def MrcError.kind : MrcError → MrcErrorKind
  | _ => MrcErrorKind.formatError

/-- One read operation performed on the stream. -/
inductive ReadOp where
  | readHeader
  | readExt (i : Nat)
  | readPlane (i : Nat)
deriving DecidableEq

/-- Observable outcome of one mrc_read call: the C return value (0 or -1),
which diagnostic fired, the reads performed on the stream in order, the
image_add calls made in order, and whether fclose was reached. -/
structure MrcRun where
  retval : Int
  error : Option MrcError
  trace : List ReadOp
  emitted : List EmittedImage
  closed : Bool
deriving DecidableEq

/-- mrc_read from mrc.c.  openOk models whether fopen succeeded; the code
never checks, so a failed open flows a null stream into fread: undefined
behavior, modelled as none.  After the primary header is read the code
checks mode = 1, then nxstart = nystart = 0, then the extended-header size
against sizeof(MRCExtHeader), closing the stream and returning -1 on each
failure.  Both the extended-header loop and the plane loop compare an
unsigned counter against the int32 nz, hence run toU32 nz times; the
extended headers are stored in a stack array of 1024 entries with no bound
check, so toU32 nz > 1024 overflows the array: undefined behavior, modelled
as none.  No fread result is ever inspected, so the stream size plays no
part in the result. -/
def mrc_read (openOk : Bool) (s : MRCStream) : Option MrcRun :=
  if openOk then
    let h := s.header
    if h.mode ≠ 1 then
      some { retval := -1, error := some MrcError.badMode, trace := [ReadOp.readHeader],
             emitted := [], closed := true }
    else if h.nxstart ≠ 0 ∨ h.nystart ≠ 0 then
      some { retval := -1, error := some MrcError.badOrigin, trace := [ReadOp.readHeader],
             emitted := [], closed := true }
    else if sizeof_MRCExtHeader < extsizeOf h then
      some { retval := -1, error := some MrcError.extTooBig, trace := [ReadOp.readHeader],
             emitted := [], closed := true }
    else if 1024 < toU32 h.nz then
      none
    else
      let n := toU32 h.nz
      some { retval := 0, error := none,
             trace := ReadOp.readHeader ::
               ((List.range n).map ReadOp.readExt ++ (List.range n).map ReadOp.readPlane),
             emitted := (List.range n).map (emitPlane s),
             closed := true }
  else
    none

/-- Indices at which mrc_read touches the 1024-entry extended-header array
ext, in order: the write ext[i] for each i below the loop bound, the read
ext[0].pixel_size before the plane loop, and the reads ext[i] inside the
plane loop. -/
def extIndicesAccessed (h : MRCHeader) : List Nat :=
  List.range (toU32 h.nz) ++ 0 :: List.range (toU32 h.nz)

/-- mrc_is_mrcfile from mrc.c: strcmp(filename+(strlen(filename)-4), ".mrc").
For a name of at least 4 characters the comparison looks at the final four
characters.  For a shorter name, strlen(filename)-4 underflows in size_t and
the pointer lands before the start of the string: an out-of-bounds read,
undefined behavior, modelled as none. -/
def mrc_is_mrcfile (filename : List Char) : Option Bool :=
  if 4 ≤ filename.length then
    some (decide (filename.drop (filename.length - 4) = ".mrc".toList))
  else
    none

/-- Electron rest mass, kg. -/
def m_e : ℚ := 9.110e-31

/-- Planck constant, J s. -/
def h_planck : ℚ := 6.625e-34

/-- Elementary charge, C. -/
def e_charge : ℚ := 1.602e-19

/-- Speed of light, m/s. -/
def c_light : ℚ := 2.998e8

/-- Modelled from the spec: the fixed electron-wavelength relation (the
function lambda from utils, not under src/): the relativistic de Broglie
wavelength of an electron accelerated through V volts,
h / sqrt(2 m e V (1 + e V / (2 m c^2))). -/
noncomputable def lambda (V : ℝ) : ℝ :=
  (h_planck : ℝ) /
    Real.sqrt (2 * (m_e : ℝ) * (e_charge : ℝ) * V *
      (1 + (e_charge : ℝ) * V / (2 * (m_e : ℝ) * (c_light : ℝ) * (c_light : ℝ))))

/-- toU32 is the identity on values already in unsigned 32-bit range. -/
theorem toU32_eq_toNat {n : Int} (h0 : 0 ≤ n) (h1 : n < 4294967296) :
    toU32 n = n.toNat := by
  unfold toU32
  rw [Int.emod_eq_of_lt h0 h1]

/-- Sample extended header used by concrete runs. -/
def extSample : MRCExtHeader :=
  { a_tilt := 5/2, tilt_axis := 90, magnification := 1000, voltage := 300, pixel_size := 2 }

/-- Header of a well-formed two-plane 2x2 file. -/
def hdrOk : MRCHeader :=
  { nx := 2, ny := 2, nz := 2, mode := 1, nxstart := 0, nystart := 0,
    numintegers := 0, numfloats := 2, next := 16 }

/-- Complete stream carrying hdrOk: primary header, two 8-byte extended
headers, then two 2x2 planes of 2-byte samples. -/
def streamOk : MRCStream :=
  { size := sizeof_MRCHeader + 16 + 16, header := hdrOk,
    ext := fun _ => extSample,
    int16At := fun o => if o % 3 = 0 then -5 else 9 }

/-- C1: a signed 16-bit sample is emitted unchanged when non-negative and as
0 when negative, that is output = max(source, 0) with no wrapping into the
unsigned range, the clipping is idempotent, and each pixel of an emitted
plane is exactly the clip of the signed sample read at its flat index. -/
theorem clip16_clips (s : Int) (hlo : -32768 ≤ s) (hhi : s < 32768) :
    (clip16 s : Int) = max s 0 ∧
    clip16 s < 65536 ∧
    (0 ≤ s → (clip16 s : Int) = s) ∧
    (s < 0 → clip16 s = 0) ∧
    clip16 ((clip16 s : Int)) = clip16 s ∧
    (∀ (st : MRCStream) (i j : Nat), j < st.header.nx.toNat * st.header.ny.toNat →
      (emitPlane st i).image[j]? =
        some (clip16 (st.int16At (planeOffset st.header i + 2 * (j : Int))))) := by
  refine ⟨?_, ?_, ?_, ?_, ?_, ?_⟩
  · unfold clip16; split <;> simp <;> omega
  · unfold clip16; split <;> omega
  · intro h0; unfold clip16; split <;> omega
  · intro hneg; unfold clip16; rw [if_pos hneg]
  · unfold clip16; split <;> simp <;> omega
  · intro st i j hj
    show ((List.range (st.header.nx.toNat * st.header.ny.toNat)).map
        (fun j : Nat => clip16 (st.int16At (planeOffset st.header i + 2 * (j : Int)))))[j]? = _
    rw [List.getElem?_map, List.getElem?_range hj, Option.map_some']

/-- Witness for clip16_clips at the samples -3 and 7. -/
theorem clip16_clips_witness :
    ((clip16 (-3) : Int) = max (-3) 0 ∧ clip16 (-3) < 65536 ∧
      ((0:Int) ≤ -3 → (clip16 (-3) : Int) = -3) ∧ ((-3:Int) < 0 → clip16 (-3) = 0) ∧
      clip16 ((clip16 (-3) : Int)) = clip16 (-3) ∧
      (∀ (st : MRCStream) (i j : Nat), j < st.header.nx.toNat * st.header.ny.toNat →
        (emitPlane st i).image[j]? =
          some (clip16 (st.int16At (planeOffset st.header i + 2 * (j : Int)))))) ∧
    clip16 7 = 7 := by
  refine ⟨clip16_clips (-3) (by decide) (by decide), by decide⟩

/-- C5: any header whose mode field differs from 1 makes mrc_read return -1
with the bad-mode diagnostic, a format error, after reading only the primary
header: the stream is closed, no extended header is read and no plane is
emitted, whatever the other header fields hold. -/
theorem mrc_read_rejects_bad_mode (s : MRCStream) (hmode : s.header.mode ≠ 1) :
    mrc_read true s =
      some { retval := -1, error := some MrcError.badMode, trace := [ReadOp.readHeader],
             emitted := [], closed := true } ∧
    MrcError.badMode.kind = MrcErrorKind.formatError := by
  exact ⟨by simp [mrc_read, hmode], rfl⟩

/-- Stream whose header carries mode 2 (and otherwise arbitrary fields). -/
def streamBadMode : MRCStream :=
  { size := 4096, header := { hdrOk with mode := 2, nxstart := 7 },
    ext := fun _ => extSample, int16At := fun _ => 3 }

/-- Witness for mrc_read_rejects_bad_mode on a concrete mode-2 stream. -/
theorem mrc_read_rejects_bad_mode_witness :
    mrc_read true streamBadMode =
      some { retval := -1, error := some MrcError.badMode, trace := [ReadOp.readHeader],
             emitted := [], closed := true } ∧
    MrcError.badMode.kind = MrcErrorKind.formatError :=
  mrc_read_rejects_bad_mode streamBadMode (by decide)

/-- C6: any header with a non-zero nxstart or nystart makes mrc_read fail
with a format error after reading only the primary header: the origin is
rejected, not corrected, and no plane is emitted. -/
theorem mrc_read_rejects_bad_origin (s : MRCStream)
    (h : s.header.nxstart ≠ 0 ∨ s.header.nystart ≠ 0) :
    ∃ run, mrc_read true s = some run ∧ run.retval = -1 ∧
      (∃ e, run.error = some e ∧ e.kind = MrcErrorKind.formatError) ∧
      run.trace = [ReadOp.readHeader] ∧ run.emitted = [] ∧ run.closed = true := by
  by_cases hm : s.header.mode = 1
  · exact ⟨{ retval := -1, error := some MrcError.badOrigin, trace := [ReadOp.readHeader],
             emitted := [], closed := true },
      by simp [mrc_read, hm, h], rfl, ⟨MrcError.badOrigin, rfl, rfl⟩, rfl, rfl, rfl⟩
  · exact ⟨{ retval := -1, error := some MrcError.badMode, trace := [ReadOp.readHeader],
             emitted := [], closed := true },
      by simp [mrc_read, hm], rfl, ⟨MrcError.badMode, rfl, rfl⟩, rfl, rfl, rfl⟩

/-- Stream whose header carries nystart 5. -/
def streamBadOrigin : MRCStream :=
  { size := 4096, header := { hdrOk with nystart := 5 },
    ext := fun _ => extSample, int16At := fun _ => 3 }

/-- Witness for mrc_read_rejects_bad_origin on a concrete stream. -/
theorem mrc_read_rejects_bad_origin_witness :
    ∃ run, mrc_read true streamBadOrigin = some run ∧ run.retval = -1 ∧
      (∃ e, run.error = some e ∧ e.kind = MrcErrorKind.formatError) ∧
      run.trace = [ReadOp.readHeader] ∧ run.emitted = [] ∧ run.closed = true :=
  mrc_read_rejects_bad_origin streamBadOrigin (by decide)

/-- C7: the extended-header size is computed as 4*numintegers + 4*numfloats,
and whenever it exceeds the maximum extended-header buffer size mrc_read
returns -1 with a format error right after the primary header: no extended
header and no plane is read, and nothing is emitted. -/
theorem mrc_read_extsize_guard (h : MRCHeader) (s : MRCStream)
    (hni : 0 ≤ h.numintegers) (hnf : 0 ≤ h.numfloats)
    (hbound : 4 * h.numintegers + 4 * h.numfloats < 4294967296)
    (hs : s.header = h)
    (hover : sizeof_MRCExtHeader < extsizeOf h) :
    ((extsizeOf h : Int) = 4 * h.numintegers + 4 * h.numfloats) ∧
    ∃ run, mrc_read true s = some run ∧ run.retval = -1 ∧
      (∃ e, run.error = some e ∧ e.kind = MrcErrorKind.formatError) ∧
      run.trace = [ReadOp.readHeader] ∧ run.emitted = [] ∧ run.closed = true := by
  subst hs
  constructor
  · unfold extsizeOf
    rw [toU32_eq_toNat (by omega) hbound]
    omega
  · by_cases hm : s.header.mode = 1
    · by_cases ho : s.header.nxstart ≠ 0 ∨ s.header.nystart ≠ 0
      · exact ⟨{ retval := -1, error := some MrcError.badOrigin, trace := [ReadOp.readHeader],
                 emitted := [], closed := true },
          by simp [mrc_read, hm, ho], rfl, ⟨MrcError.badOrigin, rfl, rfl⟩, rfl, rfl, rfl⟩
      · exact ⟨{ retval := -1, error := some MrcError.extTooBig, trace := [ReadOp.readHeader],
                 emitted := [], closed := true },
          by simp [mrc_read, hm, ho, hover], rfl, ⟨MrcError.extTooBig, rfl, rfl⟩, rfl, rfl, rfl⟩
    · exact ⟨{ retval := -1, error := some MrcError.badMode, trace := [ReadOp.readHeader],
               emitted := [], closed := true },
        by simp [mrc_read, hm], rfl, ⟨MrcError.badMode, rfl, rfl⟩, rfl, rfl, rfl⟩

/-- Header asking for 40 integers per extended header: extsize 160 exceeds
the 128-byte buffer. -/
def hdrBigExt : MRCHeader := { hdrOk with numintegers := 40, numfloats := 0 }

/-- Stream carrying hdrBigExt. -/
def streamBigExt : MRCStream :=
  { size := 8192, header := hdrBigExt, ext := fun _ => extSample, int16At := fun _ => 3 }

/-- Witness for mrc_read_extsize_guard on a concrete oversized header. -/
theorem mrc_read_extsize_guard_witness :
    ((extsizeOf hdrBigExt : Int) = 4 * hdrBigExt.numintegers + 4 * hdrBigExt.numfloats) ∧
    ∃ run, mrc_read true streamBigExt = some run ∧ run.retval = -1 ∧
      (∃ e, run.error = some e ∧ e.kind = MrcErrorKind.formatError) ∧
      run.trace = [ReadOp.readHeader] ∧ run.emitted = [] ∧ run.closed = true :=
  mrc_read_extsize_guard hdrBigExt streamBigExt (by decide) (by decide) (by decide) rfl
    (by decide)

/-- C2: on a header that passes every check (mode 1, zero origin, extended
header fitting the buffer, a non-negative plane count within the array
capacity) mrc_read returns 0 and hands the sink exactly nz planes, one
image_add call per plane, in increasing slice order, the i-th call carrying
the plane of slice i (nx*ny clipped samples, width nx, height ny) and the
metadata of extended header i. -/
theorem mrc_read_emits_all_planes (s : MRCStream)
    (hmode : s.header.mode = 1) (hxs : s.header.nxstart = 0) (hys : s.header.nystart = 0)
    (hext : extsizeOf s.header ≤ sizeof_MRCExtHeader)
    (hnz0 : 0 ≤ s.header.nz) (hnzcap : s.header.nz ≤ 1024) :
    ∃ run, mrc_read true s = some run ∧
      run.retval = 0 ∧ run.closed = true ∧
      run.emitted = (List.range s.header.nz.toNat).map (emitPlane s) ∧
      run.emitted.length = s.header.nz.toNat ∧
      (∀ i, i < s.header.nz.toNat → run.emitted[i]? = some (emitPlane s i)) ∧
      (∀ i, (emitPlane s i).width = s.header.nx ∧ (emitPlane s i).height = s.header.ny ∧
        (emitPlane s i).image.length = s.header.nx.toNat * s.header.ny.toNat ∧
        (emitPlane s i).a_tilt = (s.ext i).a_tilt ∧
        (emitPlane s i).pixel_size = (s.ext i).pixel_size) := by
  have hU : toU32 s.header.nz = s.header.nz.toNat := toU32_eq_toNat hnz0 (by omega)
  have hcap : ¬ 1024 < toU32 s.header.nz := by rw [hU]; omega
  refine ⟨{ retval := 0, error := none,
            trace := ReadOp.readHeader ::
              ((List.range s.header.nz.toNat).map ReadOp.readExt ++
                (List.range s.header.nz.toNat).map ReadOp.readPlane),
            emitted := (List.range s.header.nz.toNat).map (emitPlane s),
            closed := true }, ?_, rfl, rfl, rfl, by simp, ?_, ?_⟩
  · simp only [mrc_read, hmode, hxs, hys, hU]
    simp [Nat.not_lt.mpr hext, (by omega : ¬ 1024 < s.header.nz.toNat)]
    omega
  · intro i hi
    show ((List.range s.header.nz.toNat).map (emitPlane s))[i]? = some (emitPlane s i)
    rw [List.getElem?_map, List.getElem?_range hi, Option.map_some']
  · intro i
    exact ⟨rfl, rfl, by simp [emitPlane], rfl, rfl⟩

/-- Witness for mrc_read_emits_all_planes on the complete two-plane stream. -/
theorem mrc_read_emits_all_planes_witness :
    ∃ run, mrc_read true streamOk = some run ∧
      run.retval = 0 ∧ run.closed = true ∧
      run.emitted = (List.range streamOk.header.nz.toNat).map (emitPlane streamOk) ∧
      run.emitted.length = streamOk.header.nz.toNat ∧
      (∀ i, i < streamOk.header.nz.toNat →
        run.emitted[i]? = some (emitPlane streamOk i)) ∧
      (∀ i, (emitPlane streamOk i).width = streamOk.header.nx ∧
        (emitPlane streamOk i).height = streamOk.header.ny ∧
        (emitPlane streamOk i).image.length =
          streamOk.header.nx.toNat * streamOk.header.ny.toNat ∧
        (emitPlane streamOk i).a_tilt = (streamOk.ext i).a_tilt ∧
        (emitPlane streamOk i).pixel_size = (streamOk.ext i).pixel_size) :=
  mrc_read_emits_all_planes streamOk rfl rfl rfl (by decide) (by decide) (by decide)

/-- C10: the accesses mrc_read makes to the 1024-entry extended-header array
are all in bounds exactly when the (unsigned-compared) plane count is at
most 1024, and the code performs no such check: once the format checks pass,
a plane count above 1024 drives the write loop past the end of the array,
which is undefined behavior. -/
theorem mrc_read_ext_capacity (h : MRCHeader) :
    ((∀ i ∈ extIndicesAccessed h, i < 1024) ↔ toU32 h.nz ≤ 1024) ∧
    (∀ s : MRCStream, s.header = h → h.mode = 1 → h.nxstart = 0 → h.nystart = 0 →
      extsizeOf h ≤ sizeof_MRCExtHeader → 1024 < toU32 h.nz →
      mrc_read true s = none) := by
  constructor
  · constructor
    · intro H
      by_contra hc
      push_neg at hc
      have h1024 : (1024 : Nat) ∈ extIndicesAccessed h := by
        unfold extIndicesAccessed
        exact List.mem_append.mpr (Or.inl (List.mem_range.mpr hc))
      exact absurd (H 1024 h1024) (by omega)
    · intro H i hi
      unfold extIndicesAccessed at hi
      rcases List.mem_append.mp hi with h1 | h1
      · have := List.mem_range.mp h1
        omega
      · rcases List.mem_cons.mp h1 with h2 | h2
        · omega
        · have := List.mem_range.mp h2
          omega
  · intro s hs hm hxs hys hext hbig
    subst hs
    simp [mrc_read, hm, hxs, hys, Nat.not_lt.mpr hext, hbig]

/-- Header announcing 1025 planes, one past the array capacity. -/
def hdrBigNz : MRCHeader := { hdrOk with nz := 1025 }

/-- Stream carrying hdrBigNz. -/
def streamBigNz : MRCStream :=
  { size := 1 <<< 22, header := hdrBigNz, ext := fun _ => extSample, int16At := fun _ => 3 }

/-- Witness for mrc_read_ext_capacity at plane count 1025: the access at
index 1024 is out of bounds and the run is undefined behavior. -/
theorem mrc_read_ext_capacity_witness :
    mrc_read true streamBigNz = none ∧ ¬ (∀ i ∈ extIndicesAccessed hdrBigNz, i < 1024) := by
  constructor
  · exact (mrc_read_ext_capacity hdrBigNz).2 streamBigNz rfl rfl rfl rfl (by decide) (by decide)
  · intro H
    have := (mrc_read_ext_capacity hdrBigNz).1.mp H
    revert this
    decide

/-- Header of a 1x1 single-plane file with two extended floats per slice. -/
def truncHeader : MRCHeader :=
  { nx := 1, ny := 1, nz := 1, mode := 1, nxstart := 0, nystart := 0,
    numintegers := 0, numfloats := 2, next := 8 }

/-- Stream for truncHeader that ends one byte short of the single plane:
the file holds the primary header, the 8-byte extended header, and only one
of the two bytes of the plane sample. -/
def truncStream : MRCStream :=
  { size := sizeof_MRCHeader + 8 + 1, header := truncHeader,
    ext := fun _ => extSample, int16At := fun _ => 7 }

/-- C3: on a stream exhausted one byte into its only plane, mrc_read does
not fail: it never inspects any fread result, emits the plane built from
whatever the short read left in the buffer, and returns 0.  No truncation
error of any kind exists in the code. -/
theorem mrc_read_ignores_truncation :
    truncStream.size <
      (planeOffset truncHeader 0 + 2 * (truncHeader.nx * truncHeader.ny)).toNat ∧
    mrc_read true truncStream =
      some { retval := 0, error := none,
             trace := [ReadOp.readHeader, ReadOp.readExt 0, ReadOp.readPlane 0],
             emitted := [emitPlane truncStream 0], closed := true } := by
  constructor
  · decide
  · rfl

/-- C9: when fopen fails the code does not notice: the null stream flows
straight into fread, which is undefined behavior; no error of any kind
(in particular no transport-level error) is reported and mrc_read never
returns. -/
theorem mrc_read_open_failure_undefined (s : MRCStream) : mrc_read false s = none := rfl

/-- C4 counterexample: on the three-character name "mrc" the suffix
comparison starts one byte before the string, an out-of-bounds read, so the
call does not return false (nor anything at all). -/
theorem mrc_is_mrcfile_short_name :
    mrc_is_mrcfile ("mrc".toList) = none ∧ mrc_is_mrcfile ("mrc".toList) ≠ some false := by
  decide

/-- C4 amended: for a name of at least four characters mrc_is_mrcfile
returns true exactly when the final four characters are ".mrc"
(case-sensitive); for a shorter name the comparison reads out of bounds
(undefined behavior), so the caller must guarantee the length. -/
theorem mrc_is_mrcfile_suffix_check (name : List Char) :
    (4 ≤ name.length → (mrc_is_mrcfile name = some true ↔ ".mrc".toList <:+ name)) ∧
    (name.length < 4 → mrc_is_mrcfile name = none) := by
  constructor
  · intro h4
    have hlen : (".mrc".toList).length = 4 := by decide
    simp only [mrc_is_mrcfile, if_pos h4, Option.some.injEq, decide_eq_true_eq]
    rw [List.suffix_iff_eq_drop, hlen]
    exact ⟨fun h => h.symm, fun h => h.symm⟩
  · intro hshort
    simp only [mrc_is_mrcfile]
    rw [if_neg (by omega)]

/-- Witness for mrc_is_mrcfile_suffix_check: "scan.mrc" is accepted,
"scan.MRC" is not accepted, and "mrc" hits the out-of-bounds case. -/
theorem mrc_is_mrcfile_suffix_check_witness :
    mrc_is_mrcfile ("scan.mrc".toList) = some true ∧
    mrc_is_mrcfile ("scan.MRC".toList) ≠ some true ∧
    mrc_is_mrcfile ("mrc".toList) = none := by
  refine ⟨?_, ?_, ?_⟩
  · exact ((mrc_is_mrcfile_suffix_check ("scan.mrc".toList)).1 (by decide)).mpr (by decide)
  · intro hc
    have := ((mrc_is_mrcfile_suffix_check ("scan.MRC".toList)).1 (by decide)).mp hc
    revert this
    decide
  · exact (mrc_is_mrcfile_suffix_check ("mrc".toList)).2 (by decide)

/-- The wavelength relation is strictly decreasing on positive voltages. -/
theorem lambda_strictAnti {x y : ℝ} (hx : 0 < x) (hxy : x < y) : lambda y < lambda x := by
  have hm : (0:ℝ) < (m_e:ℝ) := by norm_num [m_e]
  have hh : (0:ℝ) < (h_planck:ℝ) := by norm_num [h_planck]
  have he : (0:ℝ) < (e_charge:ℝ) := by norm_num [e_charge]
  have hc : (0:ℝ) < (c_light:ℝ) := by norm_num [c_light]
  unfold lambda
  have hdx : (0:ℝ) < 2 * (m_e : ℝ) * (e_charge : ℝ) * x *
      (1 + (e_charge : ℝ) * x / (2 * (m_e : ℝ) * (c_light : ℝ) * (c_light : ℝ))) := by
    positivity
  have hmono : 2 * (m_e : ℝ) * (e_charge : ℝ) * x *
      (1 + (e_charge : ℝ) * x / (2 * (m_e : ℝ) * (c_light : ℝ) * (c_light : ℝ))) <
      2 * (m_e : ℝ) * (e_charge : ℝ) * y *
      (1 + (e_charge : ℝ) * y / (2 * (m_e : ℝ) * (c_light : ℝ) * (c_light : ℝ))) := by
    have h1 : 2 * (m_e : ℝ) * (e_charge : ℝ) * x < 2 * (m_e : ℝ) * (e_charge : ℝ) * y := by
      have hA : (0:ℝ) < 2 * (m_e : ℝ) * (e_charge : ℝ) := by positivity
      exact mul_lt_mul_of_pos_left hxy hA
    have h2 : 1 + (e_charge : ℝ) * x / (2 * (m_e : ℝ) * (c_light : ℝ) * (c_light : ℝ)) ≤
        1 + (e_charge : ℝ) * y / (2 * (m_e : ℝ) * (c_light : ℝ) * (c_light : ℝ)) := by
      gcongr
    have h2pos : (0:ℝ) < 1 + (e_charge : ℝ) * x /
        (2 * (m_e : ℝ) * (c_light : ℝ) * (c_light : ℝ)) := by
      have hq : (0:ℝ) < (e_charge : ℝ) * x / (2 * (m_e : ℝ) * (c_light : ℝ) * (c_light : ℝ)) :=
        div_pos (mul_pos he hx) (by positivity)
      linarith
    exact mul_lt_mul h1 h2 h2pos
      (mul_nonneg (by positivity : (0:ℝ) ≤ 2 * (m_e : ℝ) * (e_charge : ℝ)) (hx.trans hxy).le)
  have hsq : Real.sqrt (2 * (m_e : ℝ) * (e_charge : ℝ) * x *
      (1 + (e_charge : ℝ) * x / (2 * (m_e : ℝ) * (c_light : ℝ) * (c_light : ℝ)))) <
      Real.sqrt (2 * (m_e : ℝ) * (e_charge : ℝ) * y *
      (1 + (e_charge : ℝ) * y / (2 * (m_e : ℝ) * (c_light : ℝ) * (c_light : ℝ)))) :=
    Real.sqrt_lt_sqrt hdx.le hmono
  exact div_lt_div_of_pos_left hh (Real.sqrt_pos.mpr hdx) hsq

/-- C8: a slice whose voltage field is 0 resolves to the same wavelength as
one recording an explicit 200 kV (both hand 200000 V to the wavelength
relation); a positive voltage is converted to 1000*voltage volts, and the
derived wavelength strictly decreases as the voltage grows. -/
theorem voltage_wavelength_default_mono (v w : ℚ) (hv : 0 < v) (hvw : v < w) :
    lambdaArg 0 = lambdaArg 200 ∧
    lambdaArg 0 = 200000 ∧
    lambda ((lambdaArg 0 : ℚ) : ℝ) = lambda ((lambdaArg 200 : ℚ) : ℝ) ∧
    (∀ u : ℚ, u ≠ 0 → lambdaArg u = 1000 * u) ∧
    lambda ((lambdaArg w : ℚ) : ℝ) < lambda ((lambdaArg v : ℚ) : ℝ) := by
  have h0 : lambdaArg 0 = 200000 := by norm_num [lambdaArg]
  have h200 : lambdaArg 200 = 200000 := by norm_num [lambdaArg]
  refine ⟨h0.trans h200.symm, h0, by rw [h0, h200], fun u hu => by simp [lambdaArg, hu], ?_⟩
  have hv' : lambdaArg v = 1000 * v := by simp [lambdaArg, hv.ne']
  have hw' : lambdaArg w = 1000 * w := by simp [lambdaArg, (hv.trans hvw).ne']
  rw [hv', hw']
  have hvr : (0:ℝ) < ((v : ℚ) : ℝ) := by exact_mod_cast hv
  have hvR : (0:ℝ) < ((1000 * v : ℚ) : ℝ) := by push_cast; linarith
  have hlt : ((1000 * v : ℚ) : ℝ) < ((1000 * w : ℚ) : ℝ) := by
    exact_mod_cast mul_lt_mul_of_pos_left hvw (by norm_num : (0:ℚ) < 1000)
  exact lambda_strictAnti hvR hlt

/-- Witness for voltage_wavelength_default_mono at 100 kV and 200 kV. -/
theorem voltage_wavelength_default_mono_witness :
    lambdaArg 0 = lambdaArg 200 ∧
    lambdaArg 0 = 200000 ∧
    lambda ((lambdaArg 0 : ℚ) : ℝ) = lambda ((lambdaArg 200 : ℚ) : ℝ) ∧
    (∀ u : ℚ, u ≠ 0 → lambdaArg u = 1000 * u) ∧
    lambda ((lambdaArg 200 : ℚ) : ℝ) < lambda ((lambdaArg 100 : ℚ) : ℝ) :=
  voltage_wavelength_default_mono 100 200 (by norm_num) (by norm_num)
